import Mathlib

/-!
Verification development for the oddb-go crawler core.

Shallow embedding of:
- `src/fasturl/url.go` — percent escaping and unescaping over rune
  sequences (runes are modelled as `Nat` code points, bytes as `Nat`
  values below 256; Go's `byte(r)` truncation is `r % 256`, and the
  `[]rune(string(bytes))` conversion is an explicit UTF-8 decoder that
  mirrors `unicode/utf8.DecodeRune`, emitting U+FFFD on invalid input).
- `src/unnamed/part_000` — the crawl task scheduler: the admission
  registry (`register` / `unregister` over the `activeTasks` map), the
  per-task lifecycle (`Watch`, `handleCollect`, `onTaskFinished`,
  `onTaskPaused`, `collect`), and the active-task-count stall loop of
  `scheduleNewTask`.  Concurrency is modelled by an environment record
  that fixes the outcome of every fallible call and the sequence of
  values the polling loop observes; each lifecycle function is embedded
  as a function from that environment to the list of events it performs
  plus a flag recording whether it panicked.
-/

namespace Oddb

/-! ## fasturl/url.go -/

/-- The `encoding` enumeration of url.go (which URL section is being
escaped or unescaped). -/
inductive Encoding where
  | encodePath
  | encodePathSegment
  | encodeHost
  | encodeZone
  | encodeUserPassword
  | encodeQueryComponent
  | encodeFragment
deriving DecidableEq, Repr

/-- `ishex` from url.go: is this byte an ASCII hexadecimal digit. -/
def ishex (c : Nat) : Bool :=
  (48 ≤ c && c ≤ 57) || (97 ≤ c && c ≤ 102) || (65 ≤ c && c ≤ 70)

/-- `unhex` from url.go: hex digit value of a byte (0 for non-digits). -/
def unhex (c : Nat) : Nat :=
  if 48 ≤ c ∧ c ≤ 57 then c - 48
  else if 97 ≤ c ∧ c ≤ 102 then c - 97 + 10
  else if 65 ≤ c ∧ c ≤ 70 then c - 65 + 10
  else 0

/-- Go's `byte(r)` conversion: truncate a rune to its low-order byte. -/
def byteOf (c : Nat) : Nat := c % 256

/-- Characters the host/zone modes leave unescaped in `shouldEscape`
(the sub-delims plus `: [ ] < > "`). -/
def hostAllowChars : List Nat := [33, 36, 38, 39, 40, 41, 42, 43, 44, 59, 61, 58, 91, 93, 60, 62, 34]

/-- The RFC 2396 §2.3 mark characters `- _ . ~` of `shouldEscape`. -/
def markChars : List Nat := [45, 95, 46, 126]

/-- The RFC 2396 §2.2 reserved characters `$ & + , / : ; = ? @` of
`shouldEscape`. -/
def reservedChars : List Nat := [36, 38, 43, 44, 47, 58, 59, 61, 63, 64]

/-- The sub-delims `! ( ) *` that `shouldEscape` exempts in fragments. -/
def fragmentExemptChars : List Nat := [33, 40, 41, 42]

/-- The trailing part of `shouldEscape`: the fragment sub-delims check
followed by the final `return true`. -/
def shouldEscapeTail (c : Nat) (mode : Encoding) : Bool :=
  if mode = .encodeFragment ∧ c ∈ fragmentExemptChars then false else true

/-- `shouldEscape` from url.go. -/
def shouldEscape (c : Nat) (mode : Encoding) : Bool :=
  if (65 ≤ c ∧ c ≤ 90) ∨ (97 ≤ c ∧ c ≤ 122) ∨ (48 ≤ c ∧ c ≤ 57) then false
  else if (mode = .encodeHost ∨ mode = .encodeZone) ∧ c ∈ hostAllowChars then false
  else if c ∈ markChars then false
  else if c ∈ reservedChars then
    match mode with
    | .encodePath => decide (c = 63)
    | .encodePathSegment => decide (c = 47 ∨ c = 59 ∨ c = 44 ∨ c = 63)
    | .encodeUserPassword => decide (c = 64 ∨ c = 47 ∨ c = 63 ∨ c = 58)
    | .encodeQueryComponent => true
    | .encodeFragment => false
    | .encodeHost => shouldEscapeTail c mode
    | .encodeZone => shouldEscapeTail c mode
  else shouldEscapeTail c mode

/-- Errors of `unescape`: `EscapeError` and `InvalidHostError`, each
carrying the offending rune slice. -/
inductive UnescapeErr where
  | escapeErr (s : List Nat)
  | invalidHost (s : List Nat)
deriving DecidableEq, Repr

/-- Second-continuation-byte acceptance of `unicode/utf8` for a 3-byte
leader: `0xE0` requires `A0..BF`, `0xED` requires `80..9F` (excluding
surrogates), the rest require `80..BF`. -/
def utf8Accept3 (b b2 : Nat) : Bool :=
  if b = 224 then 160 ≤ b2 && b2 ≤ 191
  else if b = 237 then 128 ≤ b2 && b2 ≤ 159
  else 128 ≤ b2 && b2 ≤ 191

/-- Second-continuation-byte acceptance of `unicode/utf8` for a 4-byte
leader: `0xF0` requires `90..BF`, `0xF4` requires `80..8F`. -/
def utf8Accept4 (b b2 : Nat) : Bool :=
  if b = 240 then 144 ≤ b2 && b2 ≤ 191
  else if b = 244 then 128 ≤ b2 && b2 ≤ 143
  else 128 ≤ b2 && b2 ≤ 191

/-- A 2-byte UTF-8 sequence with leader `b`: the decoded rune and its
size, or `(RuneError, 1)` when the continuation byte is invalid or
missing. -/
def utf8Decode2 (b : Nat) : List Nat → Nat × Nat
  | b2 :: _ =>
    if 128 ≤ b2 ∧ b2 ≤ 191 then (((b &&& 31) <<< 6) ||| (b2 &&& 63), 2)
    else (65533, 1)
  | [] => (65533, 1)

/-- A 3-byte UTF-8 sequence with leader `b`. -/
def utf8Decode3 (b : Nat) : List Nat → Nat × Nat
  | b2 :: b3 :: _ =>
    if utf8Accept3 b b2 ∧ 128 ≤ b3 ∧ b3 ≤ 191 then
      (((b &&& 15) <<< 12) ||| ((b2 &&& 63) <<< 6) ||| (b3 &&& 63), 3)
    else (65533, 1)
  | _ => (65533, 1)

/-- A 4-byte UTF-8 sequence with leader `b`. -/
def utf8Decode4 (b : Nat) : List Nat → Nat × Nat
  | b2 :: b3 :: b4 :: _ =>
    if utf8Accept4 b b2 ∧ 128 ≤ b3 ∧ b3 ≤ 191 ∧ 128 ≤ b4 ∧ b4 ≤ 191 then
      (((b &&& 7) <<< 18) ||| ((b2 &&& 63) <<< 12) ||| ((b3 &&& 63) <<< 6) ||| (b4 &&& 63), 4)
    else (65533, 1)
  | _ => (65533, 1)

/-- `unicode/utf8.DecodeRune`: the first rune of the byte slice and the
number of bytes it occupies; every invalid or truncated encoding gives
`(RuneError, 1)` (U+FFFD, advance one byte). -/
def utf8DecodeRune : List Nat → Nat × Nat
  | [] => (65533, 0)
  | b :: rest =>
    if b < 128 then (b, 1)
    else if 194 ≤ b ∧ b ≤ 223 then utf8Decode2 b rest
    else if 224 ≤ b ∧ b ≤ 239 then utf8Decode3 b rest
    else if 240 ≤ b ∧ b ≤ 244 then utf8Decode4 b rest
    else (65533, 1)

/-- The rune-building loop of Go's `[]rune(string(t))` conversion:
decode the first rune, advance by its size, repeat.  Each iteration
consumes at least one byte, so the initial length of the byte slice
bounds the number of iterations and serves as structural fuel. -/
def utf8DecodeLoop : Nat → List Nat → List Nat
  | 0, _ => []
  | _, [] => []
  | fuel + 1, b :: rest =>
    let r := utf8DecodeRune (b :: rest)
    r.1 :: utf8DecodeLoop fuel (List.drop (r.2 - 1) rest)

/-- Go's `[]rune(string(t))` conversion applied to a byte slice `t`:
UTF-8 decoding as in `unicode/utf8.DecodeRune`, where every invalid
sequence yields U+FFFD (65533) and advances one byte. -/
def utf8Decode (t : List Nat) : List Nat := utf8DecodeLoop t.length t

/-- The first loop of `unescape` ("Count %, check that they're
well-formed"): returns the escape count `n` and the `hasPlus` flag, or
the error raised while scanning.  The index-based Go loop is embedded
as recursion on the remaining suffix; the error payload `s[i:i+3]`
(capped at the end of the slice) is `List.take 3` of that suffix.
`hasPlus` is assigned `mode == encodeQueryComponent` at every `+`; all
assignments write the same constant, so the fold below combines them
with disjunction. -/
def unescapeScan (mode : Encoding) : List Nat → Except UnescapeErr (Nat × Bool)
  | [] => .ok (0, false)
  | c :: rest =>
    if c = 37 then
      match rest with
      | c1 :: c2 :: rest2 =>
        if ¬(ishex (byteOf c1) ∧ ishex (byteOf c2)) then
          .error (.escapeErr (List.take 3 (c :: rest)))
        else if mode = .encodeHost ∧ unhex (byteOf c1) < 8 ∧ ¬([c, c1, c2] = [37, 50, 53]) then
          .error (.escapeErr [c, c1, c2])
        else if mode = .encodeZone ∧ ¬([c, c1, c2] = [37, 50, 53]) ∧
            (unhex (byteOf c1) <<< 4 ||| unhex (byteOf c2)) ≠ 32 ∧
            shouldEscape (unhex (byteOf c1) <<< 4 ||| unhex (byteOf c2)) .encodeHost then
          .error (.escapeErr [c, c1, c2])
        else
          match unescapeScan mode rest2 with
          | .error e => .error e
          | .ok (n, hp) => .ok (n + 1, hp)
      | _ => .error (.escapeErr (List.take 3 (c :: rest)))
    else if c = 43 then
      match unescapeScan mode rest with
      | .error e => .error e
      | .ok (n, hp) => .ok (n, decide (mode = .encodeQueryComponent) || hp)
    else
      if (mode = .encodeHost ∨ mode = .encodeZone) ∧ c < 128 ∧ shouldEscape c mode then
        .error (.invalidHost [c])
      else
        match unescapeScan mode rest with
        | .error e => .error e
        | .ok st => .ok st

/-- The second loop of `unescape`: build the decoded byte slice `t`.
Only reached after `unescapeScan` succeeded, so a `%` is always
followed by two runes here (Go would panic otherwise; the fallback
arm of the inner match is unreachable). -/
def unescapeBuild (mode : Encoding) : List Nat → List Nat
  | [] => []
  | c :: rest =>
    if c = 37 then
      match rest with
      | c1 :: c2 :: rest2 =>
        (unhex (byteOf c1) <<< 4 ||| unhex (byteOf c2)) :: unescapeBuild mode rest2
      | _ => []
    else if c = 43 then
      (if mode = .encodeQueryComponent then 32 else 43) :: unescapeBuild mode rest
    else
      byteOf c :: unescapeBuild mode rest

/-- `unescape` from url.go: validate and count, return the input
unchanged when nothing needs rewriting, otherwise decode into bytes and
convert back to runes. -/
def unescape (s : List Nat) (mode : Encoding) : Except UnescapeErr (List Nat) :=
  match unescapeScan mode s with
  | .error e => .error e
  | .ok (n, hasPlus) =>
    if n = 0 ∧ hasPlus = false then .ok s
    else .ok (utf8Decode (unescapeBuild mode s))

/-- `PathUnescape` from url.go. -/
def PathUnescape (s : List Nat) : Except UnescapeErr (List Nat) :=
  unescape s .encodePathSegment

/-- `QueryUnescape` from url.go. -/
def QueryUnescape (s : List Nat) : Except UnescapeErr (List Nat) :=
  unescape s .encodeQueryComponent

/-- The bytes of the `"0123456789ABCDEF"` table indexed by `escape`. -/
def upperhex : List Nat := [48, 49, 50, 51, 52, 53, 54, 55, 56, 57, 65, 66, 67, 68, 69, 70]

/-- The counting loop of `escape`: how many characters are rewritten to
`+` (space in query mode) and how many to `%XX`. -/
def escapeCounts (mode : Encoding) : List Nat → Nat × Nat
  | [] => (0, 0)
  | c :: rest =>
    let p := escapeCounts mode rest
    if shouldEscape c mode then
      if c = 32 ∧ mode = .encodeQueryComponent then (p.1 + 1, p.2) else (p.1, p.2 + 1)
    else p

/-- The building loop of `escape`, producing the byte slice `t`.  Go
indexes the hex table with `c>>4`, which panics (out of range) when the
rune is 256 or larger; that panic is modelled by `none` via `get?`. -/
def escapeBuild (mode : Encoding) : List Nat → Option (List Nat)
  | [] => some []
  | c :: rest =>
    if c = 32 ∧ mode = .encodeQueryComponent then
      (escapeBuild mode rest).map (fun t => 43 :: t)
    else if shouldEscape c mode then
      match upperhex.get? (c >>> 4), upperhex.get? (c &&& 15) with
      | some d1, some d2 => (escapeBuild mode rest).map (fun t => 37 :: d1 :: d2 :: t)
      | _, _ => none
    else
      (escapeBuild mode rest).map (fun t => byteOf c :: t)

/-- `escape` from url.go: return the input unchanged when nothing needs
escaping, otherwise build the escaped bytes and convert back to runes. -/
def escape (s : List Nat) (mode : Encoding) : Option (List Nat) :=
  let counts := escapeCounts mode s
  if counts.1 = 0 ∧ counts.2 = 0 then some s
  else (escapeBuild mode s).map utf8Decode

/-- `PathEscape` from url.go. -/
def PathEscape (s : List Nat) : Option (List Nat) :=
  escape s .encodePathSegment

/-- `QueryEscape` from url.go. -/
def QueryEscape (s : List Nat) : Option (List Nat) :=
  escape s .encodeQueryComponent

/-! ## part_000 — admission registry

`activeTasks` is a mutex-guarded `map[uint64]bool`; the mutex makes
each operation atomic, so the registry is modelled as the list of keys
present in the map and each operation as one atomic step.  Go map keys
are unique by construction, which here is the `Nodup` invariant proved
below. -/

/-- `(*Task).register` from part_000: under the lock, reject when the
site identifier is already a key, otherwise insert it and report
success. -/
def register (id : Nat) (activeTasks : List Nat) : Bool × List Nat :=
  if id ∈ activeTasks then (false, activeTasks) else (true, id :: activeTasks)

/-- `(*Task).unregister` from part_000: under the lock, delete the site
identifier unconditionally (on a duplicate-free key list, erasing the
first occurrence is the map deletion). -/
def unregister (id : Nat) (activeTasks : List Nat) : List Nat :=
  activeTasks.erase id

/-- One admission-registry call. -/
inductive RegOp where
  | reg (id : Nat)
  | unreg (id : Nat)
deriving DecidableEq, Repr

/-- Run a sequence of registry calls against a registry state. -/
def regRun : List RegOp → List Nat → List Nat
  | [], st => st
  | .reg id :: ops, st => regRun ops (register id st).2
  | .unreg id :: ops, st => regRun ops (unregister id st)

/-- The registry state after a call sequence from the initial empty
`activeTasks` map. -/
def runReg (ops : List RegOp) : List Nat :=
  regRun ops []

/-! ## part_000 — task lifecycle

The lifecycle of one admitted task (`scheduleNewTask` setup plus the
`Watch` goroutine) is embedded as a function from an environment — the
outcome of every fallible external call and the sequence of
`(InProgress == 0, aborted != 0)` pairs the `handleCollect` polling
loop observes — to the list of events the task performs, plus a flag
recording whether it panicked.  Go runs deferred calls while a panic
unwinds, so deferred events also appear on panicking paths; an
unrecovered panic then kills the process. -/

/-- Observable actions of one task run. -/
inductive Event where
  | register
  | spawnWorkers
  | incActive
  | queueSeed
  | collectStart
  | workersWait
  | closeQueue
  | endStamp
  | statusSet (s : String)
  | decActive
  | saveTaskCall (ok : Bool)
  | logSaveFail
  | logPaused
  | closeResults
  | openFileFailLog
  | logCollectErr
  | pushResultCall (ok : Bool)
  | logPushFail
  | removeFile
  | closeFile
  | unregister
  | waitDone
deriving DecidableEq, Repr

/-- Environment of one task run: outcomes of the fallible external
calls and the observations of the polling loop. -/
structure TaskEnv where
  /-- `os.RemoveAll(queuePath)` fails (scheduleNewTask panics). -/
  removeAllFails : Bool
  /-- `OpenQueue(queuePath)` fails (scheduleNewTask panics). -/
  openQueueFails : Bool
  /-- `os.OpenFile(filePath, ...)` fails (Watch logs and returns). -/
  openFileFails : Bool
  /-- Per polling-loop iteration, the observed pair
  `(InProgress == 0, aborted != 0)`. -/
  polls : List (Bool × Bool)
  /-- `Queue.Close()` fails (onTaskFinished / onTaskPaused panic). -/
  closeQueueFails : Bool
  /-- `Collect` reports a write error on the error channel. -/
  collectErr : Bool
  /-- `PushResult` fails. -/
  pushFails : Bool
  /-- `SaveTask` fails. -/
  saveFails : Bool
  /-- `Result.FileCount` at termination. -/
  fileCount : Nat
  /-- `Result.ErrorCount` at termination. -/
  errorCount : Nat
deriving DecidableEq, Repr

/-- The status-code computation at the end of `onTaskFinished`. -/
def statusCodeOf (fileCount errorCount : Nat) : String :=
  if fileCount = 0 then
    if errorCount = 0 then ("empty") else ("directory listing failed")
  else ("success")

/-- The decision of the `handleCollect` polling loop on a sequence of
observations: the in-progress-zero check comes first, the abort check
second, otherwise sleep and poll again.  `none` means no observation
ever decided (the loop runs forever). -/
def pollDecision : List (Bool × Bool) → Option Bool
  | [] => none
  | (z, a) :: rest => if z then some true else if a then some false else pollDecision rest

/-- `onTaskFinished` from part_000: close the queue (panic on failure),
log, stamp the end time, compute the status code; the deferred
active-count decrement runs on both exits. -/
def onTaskFinishedRun (env : TaskEnv) : List Event × Bool :=
  if env.closeQueueFails then ([.decActive], true)
  else ([.closeQueue, .endStamp, .statusSet (statusCodeOf env.fileCount env.errorCount), .decActive], false)

/-- `onTaskPaused` from part_000: close the queue (panic on failure),
stamp the end time, call `SaveTask`; a save failure is logged and the
function returns; the deferred active-count decrement runs on every
exit. -/
def onTaskPausedRun (env : TaskEnv) : List Event × Bool :=
  if env.closeQueueFails then ([.decActive], true)
  else if env.saveFails then
    ([.closeQueue, .endStamp, .saveTaskCall false, .logSaveFail, .decActive], false)
  else
    ([.closeQueue, .endStamp, .saveTaskCall true, .logPaused, .decActive], false)

/-- `handleCollect` from part_000: start `Collect`, poll until a
decision, run the matching terminal handler; the deferred
`close(results)` runs when the function returns or unwinds (and never
when the loop runs forever).  Returns the decision (`some true` for
natural finish, `some false` for abort), the events, and the panic
flag. -/
def handleCollectRun (env : TaskEnv) : Option Bool × List Event × Bool :=
  match pollDecision env.polls with
  | none => (none, [.collectStart], false)
  | some true =>
    let r := onTaskFinishedRun env
    (some true, .collectStart :: (r.1 ++ [.closeResults]), r.2)
  | some false =>
    let r := onTaskPausedRun env
    (some false, .collectStart :: .workersWait :: (r.1 ++ [.closeResults]), r.2)

/-- The deferred calls of `Watch` after the results file was opened, in
execution (LIFO) order: `os.Remove`, `f.Close`, `unregister`,
`globalWait.Done`. -/
def watchDefers : List Event := [.removeFile, .closeFile, .unregister, .waitDone]

/-- `Watch` from part_000: open the results file (log and return on
failure), run `handleCollect`, read the collector's exit code, upload
on the natural-finish path; deferred calls run on every return and on
panic unwinding. -/
def watchRun (env : TaskEnv) : List Event × Bool :=
  if env.openFileFails then ([.openFileFailLog, .unregister, .waitDone], false)
  else
    match handleCollectRun env with
    | (none, ev, _) => (ev, false)
    | (some d, ev, p) =>
      if p then (ev ++ watchDefers, true)
      else if d then
        if env.collectErr then (ev ++ [.logCollectErr] ++ watchDefers, false)
        else if env.pushFails then
          (ev ++ [.pushResultCall false, .logPushFail] ++ watchDefers, false)
        else
          (ev ++ [.pushResultCall true] ++ watchDefers, false)
      else (ev ++ watchDefers, false)

/-- One admitted task end to end: `register` already succeeded in
`ScheduleTask`; `scheduleNewTask` wipes the queue directory and opens
the queue (each panicking on failure, before the `Watch` goroutine —
and with it the deferred `unregister` — exists), spawns the workers,
increments the active count, enqueues the seed job, and spawns
`Watch`. -/
def taskRun (env : TaskEnv) : List Event × Bool :=
  if env.removeAllFails then ([.register], true)
  else if env.openQueueFails then ([.register], true)
  else
    let w := watchRun env
    (.register :: .spawnWorkers :: .incActive :: .queueSeed :: w.1, w.2)

/-- Whether an event is a `PushResult` invocation. -/
def isPushEvent : Event → Bool
  | .pushResultCall _ => true
  | _ => false

/-- Whether an event is a `SaveTask` invocation. -/
def isSaveEvent : Event → Bool
  | .saveTaskCall _ => true
  | _ => false

/-- The task reached `onTaskFinished` (natural completion): setup did
not panic, the results file opened, and the polling loop observed
`InProgress == 0` first. -/
def reachedFinished (env : TaskEnv) : Prop :=
  env.removeAllFails = false ∧ env.openQueueFails = false ∧
  env.openFileFails = false ∧ pollDecision env.polls = some true

instance (env : TaskEnv) : Decidable (reachedFinished env) := by
  unfold reachedFinished; infer_instance

/-! ## part_000 — collector -/

/-- Modelled from the spec: the `File` record produced by workers is
declared outside the provided sources; §3 lists path, name, size and
modification-time fields, the path and name stored in encoded form.
Only `Path` and `Name` are read by `collect`. -/
structure File where
  Path : List Nat
  Name : List Nat
  Size : Nat
  MTime : Int
deriving DecidableEq, Repr

/-- Modelled from the spec: the single-result `PathUnescape` the
Collector imports (from a module not under the provided sources) is
best-effort per §6 — decode `%XX` triples, and on malformed input fall
back to passing the value through unchanged. -/
def collectorPathUnescape (s : List Nat) : List Nat :=
  match PathUnescape s with
  | .ok t => t
  | .error _ => s

/-- The per-entry normalization of `collect`: percent-decode the
`Path` and `Name` fields before serialization. -/
def decodeFile (f : File) : File :=
  { f with Path := collectorPathUnescape f.Path, Name := collectorPathUnescape f.Name }

/-- `(*Task).collect` from part_000, for a finite stream (the `range`
over the results channel until closure).  `marshal` stands for
`json.Marshal`, which cannot fail on the producer-controlled `File`
value; `wr` gives the outcome of the n-th `f.Write` call (`none` for
success).  Returns the bytes appended to the record file and the error
returned by `collect` (`none` on clean exit); each entry costs one
write for its serialization and one for the newline, and the first
failing write aborts the loop. -/
def collectRun (marshal : File → List Nat) (wr : Nat → Option Nat) :
    List File → Nat → List Nat × Option Nat
  | [], _ => ([], none)
  | f :: fs, k =>
    let js := marshal (decodeFile f)
    match wr k with
    | some e => ([], some e)
    | none =>
      match wr (k + 1) with
      | some e => (js, some e)
      | none =>
        let r := collectRun marshal wr fs (k + 2)
        (js ++ 10 :: r.1, r.2)

/-- The first error among `n` consecutive write outcomes starting at
call index `k` (the error `collect` propagates). -/
def firstWriteErr (wr : Nat → Option Nat) : Nat → Nat → Option Nat
  | _, 0 => none
  | k, n + 1 =>
    match wr k with
    | some e => some e
    | none => firstWriteErr wr (k + 1) n

/-! ## part_000 — scheduler stall loop

`Schedule` admits tasks from the inbound channel at its `select`; after
admitting one, `scheduleNewTask` increments `numActiveTasks` and then
sleeps in fixed intervals while the count exceeds `config.Tasks`,
before returning to the `select`.  Running tasks decrement the count
when they terminate, concurrently.  Cancellation-free runs are
modelled. -/

/-- Where the scheduling goroutine is: at the inbound `select`, or in
the stall-sleep loop after an admission. -/
inductive SchedLoc where
  | atSelect
  | stalling
deriving DecidableEq, Repr

/-- Scheduler state: position of the scheduling goroutine and the
current `numActiveTasks` value. -/
structure SchedState where
  loc : SchedLoc
  active : Nat
deriving DecidableEq, Repr

/-- Interleaved steps of the scheduling goroutine and of terminating
tasks, with concurrency ceiling `T` (`config.Tasks`). -/
inductive SchedStep (T : Nat) : SchedState → SchedState → Prop where
  /-- The `select` receives a task: `scheduleNewTask` increments the
  active count and enters the stall loop. -/
  | admitTask (n : Nat) : SchedStep T ⟨.atSelect, n⟩ ⟨.stalling, n + 1⟩
  /-- One interval of the stall loop while the count still exceeds the
  ceiling. -/
  | stallTick (n : Nat) : T < n → SchedStep T ⟨.stalling, n⟩ ⟨.stalling, n⟩
  /-- The stall loop exits once the count no longer exceeds the
  ceiling, returning to the `select`. -/
  | unstall (n : Nat) : n ≤ T → SchedStep T ⟨.stalling, n⟩ ⟨.atSelect, n⟩
  /-- A running task terminates (`onTaskFinished` / `onTaskPaused`
  decrements the count), at any scheduler position. -/
  | finish (loc : SchedLoc) (n : Nat) : SchedStep T ⟨loc, n + 1⟩ ⟨loc, n⟩

/-- Scheduler states reachable from process start (scheduling
goroutine at the `select`, no active tasks). -/
def SchedReachable (T : Nat) (s : SchedState) : Prop :=
  Relation.ReflTransGen (SchedStep T) ⟨.atSelect, 0⟩ s

/-! ## claim-side transcriptions -/

/-- The claim's notion of malformed percent-encoded input: some `%` in
the rune sequence is not followed by two hexadecimal-digit runes. -/
def specMalformed : List Nat → Bool
  | [] => false
  | 37 :: c1 :: c2 :: rest => !(ishex c1 && ishex c2) || specMalformed (c1 :: c2 :: rest)
  | 37 :: _ => true
  | _ :: rest => specMalformed rest

/-- Whether an `unescape` result is the error case. -/
def isErr : Except UnescapeErr (List Nat) → Bool
  | .error _ => true
  | .ok _ => false

/-- Total lookup in the `upperhex` table (proof-side shorthand for the
in-bounds indexing of `escape`). -/
def uh (i : Nat) : Nat := upperhex.getD i 0

/-- The bytes `escape` emits for one rune in path-segment mode: a
`%XX` triple when the rune must be escaped, the rune itself
otherwise. -/
def encPS (c : Nat) : List Nat :=
  if shouldEscape c .encodePathSegment then [37, uh (c >>> 4), uh (c &&& 15)] else [c]

/-! ## Registry lemmas -/

theorem register_nodup (id : Nat) (st : List Nat) (h : st.Nodup) :
    (register id st).2.Nodup := by
  unfold register
  split
  · exact h
  · exact List.nodup_cons.mpr ⟨by assumption, h⟩

theorem regRun_nodup (ops : List RegOp) (st : List Nat) (h : st.Nodup) :
    (regRun ops st).Nodup := by
  induction ops generalizing st with
  | nil => exact h
  | cons op ops ih =>
    cases op with
    | reg id => exact ih _ (register_nodup id st h)
    | unreg id => exact ih _ (h.erase id)

theorem runReg_nodup (ops : List RegOp) : (runReg ops).Nodup :=
  regRun_nodup ops [] List.nodup_nil

theorem mem_register (id id' : Nat) (st : List Nat) (h : id ∈ st) :
    id ∈ (register id' st).2 := by
  unfold register
  split
  · exact h
  · exact List.mem_cons_of_mem _ h

theorem mem_regRun_of_no_unreg (ops : List RegOp) (id : Nat) (st : List Nat)
    (h : id ∈ st) (hops : ∀ op ∈ ops, op ≠ RegOp.unreg id) :
    id ∈ regRun ops st := by
  induction ops generalizing st with
  | nil => exact h
  | cons op ops ih =>
    cases op with
    | reg id' =>
      exact ih _ (mem_register id id' st h) (fun op hop => hops op (List.mem_cons_of_mem _ hop))
    | unreg id' =>
      have hne : id ≠ id' := by
        intro he
        exact hops _ (List.mem_cons_self _ _) (by rw [he])
      exact ih _ ((List.mem_erase_of_ne hne).mpr h)
        (fun op hop => hops op (List.mem_cons_of_mem _ hop))

theorem regRun_append (ops more : List RegOp) (st : List Nat) :
    regRun (ops ++ more) st = regRun more (regRun ops st) := by
  induction ops generalizing st with
  | nil => rfl
  | cons op ops ih => cases op <;> simp [regRun, ih]

/-- C1: `register(siteId)` inserts the identifier if absent and returns
whether insertion succeeded; the registry never holds a site identifier
more than once; a second `register` for a registered identifier returns
false and keeps returning false across any further calls that do not
`unregister` that identifier. -/
theorem C1_admission_uniqueness (ops more : List RegOp) (a b : Nat)
    (ha : a ∈ runReg ops) (hb : b ∉ runReg ops)
    (hm : ∀ op ∈ more, op ≠ RegOp.unreg a) :
    (runReg ops).Nodup ∧
    List.count a (runReg ops) ≤ 1 ∧
    (register a (runReg ops)).1 = false ∧
    (register a (runReg ops)).2 = runReg ops ∧
    (register b (runReg ops)).1 = true ∧
    b ∈ (register b (runReg ops)).2 ∧
    a ∈ runReg (ops ++ more) ∧
    (register a (runReg (ops ++ more))).1 = false := by
  have hnd := runReg_nodup ops
  have hmem : a ∈ runReg (ops ++ more) := by
    rw [runReg, regRun_append]
    exact mem_regRun_of_no_unreg more a (runReg ops) ha hm
  refine ⟨hnd, List.nodup_iff_count_le_one.mp hnd a, ?_, ?_, ?_, ?_, hmem, ?_⟩
  · simp [register, ha]
  · simp [register, ha]
  · simp [register, hb]
  · simp [register, hb]
  · simp [register, hmem]

theorem C1_admission_uniqueness_witness :
    (runReg [RegOp.reg 7]).Nodup ∧
    List.count 7 (runReg [RegOp.reg 7]) ≤ 1 ∧
    (register 7 (runReg [RegOp.reg 7])).1 = false ∧
    (register 7 (runReg [RegOp.reg 7])).2 = runReg [RegOp.reg 7] ∧
    (register 3 (runReg [RegOp.reg 7])).1 = true ∧
    3 ∈ (register 3 (runReg [RegOp.reg 7])).2 ∧
    7 ∈ runReg ([RegOp.reg 7] ++ [RegOp.reg 9, RegOp.unreg 9]) ∧
    (register 7 (runReg ([RegOp.reg 7] ++ [RegOp.reg 9, RegOp.unreg 9]))).1 = false :=
  C1_admission_uniqueness [RegOp.reg 7] [RegOp.reg 9, RegOp.unreg 9] 7 3
    (by decide) (by decide) (by decide)

/-! ## Task lifecycle theorems -/

/-- C2: a naturally finished task gets its status code from the
`onTaskFinished` rules: positive file count means success regardless of
errors; zero files and zero errors means empty; zero files with errors
means directory listing failed. -/
theorem C2_status_classification (env : TaskEnv)
    (hra : env.removeAllFails = false) (hoq : env.openQueueFails = false)
    (hof : env.openFileFails = false) (hpd : pollDecision env.polls = some true)
    (hcq : env.closeQueueFails = false) :
    Event.statusSet (statusCodeOf env.fileCount env.errorCount) ∈ (taskRun env).1 ∧
    (0 < env.fileCount → statusCodeOf env.fileCount env.errorCount = ("success")) ∧
    (env.fileCount = 0 ∧ env.errorCount = 0 → statusCodeOf env.fileCount env.errorCount = ("empty")) ∧
    (env.fileCount = 0 ∧ 0 < env.errorCount →
      statusCodeOf env.fileCount env.errorCount = ("directory listing failed")) := by
  refine ⟨?_, ?_, ?_, ?_⟩
  · cases hce : env.collectErr <;> cases hpf : env.pushFails <;>
      simp [taskRun, watchRun, handleCollectRun, onTaskFinishedRun, watchDefers,
        hra, hoq, hof, hpd, hcq, hce, hpf]
  · intro h
    rw [statusCodeOf, if_neg (by omega)]
  · rintro ⟨h1, h2⟩
    rw [statusCodeOf, if_pos h1, if_pos h2]
  · rintro ⟨h1, h2⟩
    rw [statusCodeOf, if_pos h1, if_neg (by omega)]

theorem C2_status_classification_witness :
    Event.statusSet (statusCodeOf 0 2) ∈
      (taskRun ⟨false, false, false, [(true, false)], false, false, false, false, 0, 2⟩).1 ∧
    (0 < 0 → statusCodeOf 0 2 = ("success")) ∧
    ((0 : Nat) = 0 ∧ (2 : Nat) = 0 → statusCodeOf 0 2 = ("empty")) ∧
    ((0 : Nat) = 0 ∧ 0 < 2 → statusCodeOf 0 2 = ("directory listing failed")) :=
  C2_status_classification ⟨false, false, false, [(true, false)], false, false, false, false, 0, 2⟩
    rfl rfl rfl rfl rfl

theorem pollDecision_skip (pre rest : List (Bool × Bool))
    (hpre : ∀ p ∈ pre, p = (false, false)) :
    pollDecision (pre ++ rest) = pollDecision rest := by
  induction pre with
  | nil => rfl
  | cons p pre ih =>
    have hp := hpre p (List.mem_cons_self _ _)
    rw [hp]
    simpa [pollDecision] using ih (fun q hq => hpre q (List.mem_cons_of_mem _ hq))

/-- C7: the polling loop checks the in-progress-zero condition before
the abort flag, so a poll observing `InProgress == 0` finishes the task
naturally even when the abort flag is set at that same poll: the run
contains no pause activity and sets a terminal status code. -/
theorem C7_completion_beats_abort (env : TaskEnv) (pre rest : List (Bool × Bool)) (a : Bool)
    (hpolls : env.polls = pre ++ (true, a) :: rest)
    (hpre : ∀ p ∈ pre, p = (false, false))
    (hra : env.removeAllFails = false) (hoq : env.openQueueFails = false)
    (hof : env.openFileFails = false) (hcq : env.closeQueueFails = false) :
    pollDecision env.polls = some true ∧
    Event.workersWait ∉ (taskRun env).1 ∧
    (taskRun env).1.countP isSaveEvent = 0 ∧
    Event.statusSet (statusCodeOf env.fileCount env.errorCount) ∈ (taskRun env).1 := by
  have hpd : pollDecision env.polls = some true := by
    rw [hpolls, pollDecision_skip pre _ hpre]
    simp [pollDecision]
  refine ⟨hpd, ?_, ?_, ?_⟩
  · cases hce : env.collectErr <;> cases hpf : env.pushFails <;>
      simp [taskRun, watchRun, handleCollectRun, onTaskFinishedRun, watchDefers,
        hra, hoq, hof, hpd, hcq, hce, hpf, isSaveEvent]
  · cases hce : env.collectErr <;> cases hpf : env.pushFails <;>
      simp [taskRun, watchRun, handleCollectRun, onTaskFinishedRun, watchDefers,
        hra, hoq, hof, hpd, hcq, hce, hpf, isSaveEvent]
  · cases hce : env.collectErr <;> cases hpf : env.pushFails <;>
      simp [taskRun, watchRun, handleCollectRun, onTaskFinishedRun, watchDefers,
        hra, hoq, hof, hpd, hcq, hce, hpf]

theorem C7_completion_beats_abort_witness :
    pollDecision (TaskEnv.polls ⟨false, false, false, [(false, false), (true, true)], false, false, false, false, 1, 0⟩) = some true ∧
    Event.workersWait ∉ (taskRun ⟨false, false, false, [(false, false), (true, true)], false, false, false, false, 1, 0⟩).1 ∧
    (taskRun ⟨false, false, false, [(false, false), (true, true)], false, false, false, false, 1, 0⟩).1.countP isSaveEvent = 0 ∧
    Event.statusSet (statusCodeOf 1 0) ∈
      (taskRun ⟨false, false, false, [(false, false), (true, true)], false, false, false, false, 1, 0⟩).1 :=
  C7_completion_beats_abort ⟨false, false, false, [(false, false), (true, true)], false, false, false, false, 1, 0⟩
    [(false, false)] [] true rfl (by decide) rfl rfl rfl rfl

/-- C8: when `SaveTask` fails on the pause path, the failure is logged
and swallowed — the run does not panic, saves exactly once (no retry),
and still stamps the end time and decrements the active-task count. -/
theorem C8_pause_persist_fault (env : TaskEnv)
    (hra : env.removeAllFails = false) (hoq : env.openQueueFails = false)
    (hof : env.openFileFails = false) (hpd : pollDecision env.polls = some false)
    (hcq : env.closeQueueFails = false) (hsf : env.saveFails = true) :
    (taskRun env).2 = false ∧
    (taskRun env).1.countP isSaveEvent = 1 ∧
    Event.logSaveFail ∈ (taskRun env).1 ∧
    Event.endStamp ∈ (taskRun env).1 ∧
    Event.decActive ∈ (taskRun env).1 ∧
    (taskRun env).1.count Event.unregister = 1 := by
  refine ⟨?_, ?_, ?_, ?_, ?_, ?_⟩ <;>
    simp [taskRun, watchRun, handleCollectRun, onTaskPausedRun, watchDefers,
      hra, hoq, hof, hpd, hcq, hsf, isSaveEvent]

theorem C8_pause_persist_fault_witness :
    (taskRun ⟨false, false, false, [(false, true)], false, false, false, true, 0, 0⟩).2 = false ∧
    (taskRun ⟨false, false, false, [(false, true)], false, false, false, true, 0, 0⟩).1.countP isSaveEvent = 1 ∧
    Event.logSaveFail ∈ (taskRun ⟨false, false, false, [(false, true)], false, false, false, true, 0, 0⟩).1 ∧
    Event.endStamp ∈ (taskRun ⟨false, false, false, [(false, true)], false, false, false, true, 0, 0⟩).1 ∧
    Event.decActive ∈ (taskRun ⟨false, false, false, [(false, true)], false, false, false, true, 0, 0⟩).1 ∧
    (taskRun ⟨false, false, false, [(false, true)], false, false, false, true, 0, 0⟩).1.count Event.unregister = 1 :=
  C8_pause_persist_fault ⟨false, false, false, [(false, true)], false, false, false, true, 0, 0⟩
    rfl rfl rfl rfl rfl rfl

/-- C3, counterexample: when the queue-directory wipe fails during
setup, `scheduleNewTask` panics before the `Watch` goroutine — and with
it the deferred `unregister` — exists, so the registered task is never
unregistered (the claim says unregister is called exactly once even on
this path). -/
theorem C3_counterexample :
    (taskRun ⟨true, false, false, [], false, false, false, false, 0, 0⟩).2 = true ∧
    (taskRun ⟨true, false, false, [], false, false, false, false, 0, 0⟩).1.count Event.unregister = 0 := by
  decide

/-- C3, amended: for every successfully registered task whose setup did
not panic, `unregister` runs exactly once on every termination path —
natural finish, pause, results-file open failure, collector error,
upload failure, save failure, and even a queue-close panic (Go runs the
deferred calls while unwinding).  On a setup panic (queue wipe or queue
open failure) the process dies without calling `unregister`. -/
theorem C3_unregister_once (env : TaskEnv)
    (hra : env.removeAllFails = false) (hoq : env.openQueueFails = false)
    (hterm : env.openFileFails = true ∨ pollDecision env.polls ≠ none) :
    (taskRun env).1.count Event.unregister = 1 := by
  rcases hterm with hof | hdec
  · simp [taskRun, watchRun, hra, hoq, hof]
  · cases hof : env.openFileFails with
    | false =>
      rcases hpd : pollDecision env.polls with - | d
      · exact absurd hpd hdec
      · cases d <;> cases hcq : env.closeQueueFails <;> cases hce : env.collectErr <;>
          cases hpf : env.pushFails <;> cases hsf : env.saveFails <;>
          simp [taskRun, watchRun, handleCollectRun, onTaskFinishedRun, onTaskPausedRun,
            watchDefers, hra, hoq, hof, hpd, hcq, hce, hpf, hsf]
    | true => simp [taskRun, watchRun, hra, hoq, hof]

theorem C3_unregister_once_witness :
    (taskRun ⟨false, false, false, [(false, true)], true, false, false, true, 0, 0⟩).1.count Event.unregister = 1 :=
  C3_unregister_once ⟨false, false, false, [(false, true)], true, false, false, true, 0, 0⟩
    rfl rfl (Or.inr (by decide))

/-- C6: in panic-free runs, `PushResult` is invoked exactly when the
task reached natural completion and the Collector reported no error —
and then exactly once; on the finished path no `SaveTask` happens and
the task is never re-registered, so a failed upload is terminally
lost. -/
theorem C6_push_iff_finished (env : TaskEnv) (hcq : env.closeQueueFails = false) :
    ((taskRun env).1.countP isPushEvent
      = if reachedFinished env ∧ env.collectErr = false then 1 else 0) ∧
    (reachedFinished env → (taskRun env).1.countP isSaveEvent = 0) ∧
    (taskRun env).1.count Event.register = 1 ∧
    (taskRun env).1.countP isPushEvent ≤ 1 := by
  cases hra : env.removeAllFails <;> cases hoq : env.openQueueFails <;>
    cases hof : env.openFileFails <;> cases hce : env.collectErr <;>
    cases hpf : env.pushFails <;> cases hsf : env.saveFails <;>
    rcases hpd : pollDecision env.polls with - | d <;>
    first
      | (cases d <;>
          simp [taskRun, watchRun, handleCollectRun, onTaskFinishedRun, onTaskPausedRun,
            watchDefers, reachedFinished, isPushEvent, isSaveEvent,
            hra, hoq, hof, hce, hpf, hsf, hpd, hcq])
      | simp [taskRun, watchRun, handleCollectRun, onTaskFinishedRun, onTaskPausedRun,
          watchDefers, reachedFinished, isPushEvent, isSaveEvent,
          hra, hoq, hof, hce, hpf, hsf, hpd, hcq]

theorem C6_push_iff_finished_witness :
    ((taskRun ⟨false, false, false, [(true, false)], false, false, true, false, 2, 0⟩).1.countP isPushEvent
      = if reachedFinished ⟨false, false, false, [(true, false)], false, false, true, false, 2, 0⟩ ∧
          TaskEnv.collectErr ⟨false, false, false, [(true, false)], false, false, true, false, 2, 0⟩ = false
        then 1 else 0) ∧
    (reachedFinished ⟨false, false, false, [(true, false)], false, false, true, false, 2, 0⟩ →
      (taskRun ⟨false, false, false, [(true, false)], false, false, true, false, 2, 0⟩).1.countP isSaveEvent = 0) ∧
    (taskRun ⟨false, false, false, [(true, false)], false, false, true, false, 2, 0⟩).1.count Event.register = 1 ∧
    (taskRun ⟨false, false, false, [(true, false)], false, false, true, false, 2, 0⟩).1.countP isPushEvent ≤ 1 :=
  C6_push_iff_finished ⟨false, false, false, [(true, false)], false, false, true, false, 2, 0⟩ rfl

/-! ## Scheduler stall-loop theorems -/

theorem sched_inv (T : Nat) (s : SchedState) (h : SchedReachable T s) :
    s.active ≤ T + 1 ∧ (s.loc = SchedLoc.atSelect → s.active ≤ T) := by
  induction h with
  | refl => exact ⟨Nat.zero_le _, fun _ => Nat.zero_le _⟩
  | tail hr hstep ih =>
    cases hstep with
    | admitTask n =>
      have h2 : n ≤ T := ih.2 rfl
      refine ⟨?_, fun hl => ?_⟩
      · show n + 1 ≤ T + 1
        omega
      · exact absurd hl (by simp)
    | stallTick n hn => exact ih
    | unstall n hn => exact ⟨ih.1, fun _ => hn⟩
    | finish loc n =>
      have h1 : n + 1 ≤ T + 1 := ih.1
      refine ⟨?_, fun hl => ?_⟩
      · show n ≤ T + 1
        omega
      · have h2 : n + 1 ≤ T := ih.2 hl
        show n ≤ T
        omega

/-- C4, counterexample: with concurrency ceiling 0 the scheduler admits
a task and reaches active count 1, so the active-task count does exceed
the configured ceiling (`scheduleNewTask` increments the count before
it checks the ceiling). -/
theorem C4_counterexample :
    SchedReachable 0 ⟨SchedLoc.stalling, 1⟩ ∧
    ¬(SchedState.active ⟨SchedLoc.stalling, 1⟩ ≤ 0) :=
  ⟨Relation.ReflTransGen.single (SchedStep.admitTask 0), by decide⟩

/-- C4, amended: the active-task count never exceeds the ceiling plus
one (the scheduler admits at most one task beyond the ceiling, because
the increment precedes the check); whenever the count exceeds the
ceiling, the scheduling goroutine is in the stall loop, and every
possible step keeps it stalling without increasing the count — only
task terminations change it — so intake stalls until the count drops
back to the ceiling. -/
theorem C4_ceiling_stall (T : Nat) (s s' : SchedState) (h : SchedReachable T s) :
    s.active ≤ T + 1 ∧
    (T < s.active → s.loc = SchedLoc.stalling) ∧
    (T < s.active → SchedStep T s s' →
      s'.active ≤ s.active ∧ s'.loc = SchedLoc.stalling) := by
  obtain ⟨h1, h2⟩ := sched_inv T s h
  have hloc : T < s.active → s.loc = SchedLoc.stalling := by
    intro hT
    cases hl : s.loc with
    | atSelect => exact absurd (h2 hl) (by omega)
    | stalling => rfl
  refine ⟨h1, hloc, fun hT hstep => ?_⟩
  cases hstep with
  | admitTask n => exact absurd (hloc hT) (by simp)
  | stallTick n hn => exact ⟨le_refl _, rfl⟩
  | unstall n hn =>
    have hT' : T < n := hT
    exact absurd hn (by omega)
  | finish loc n =>
    exact ⟨Nat.le_succ n, hloc hT⟩

/-! ## Collector theorems -/

theorem collectRun_clean (marshal : File → List Nat) (wr : Nat → Option Nat)
    (hclean : ∀ n, wr n = none) (files : List File) (k : Nat) :
    collectRun marshal wr files k =
      ((files.map fun f => marshal (decodeFile f) ++ [10]).flatten, none) := by
  induction files generalizing k with
  | nil => rfl
  | cons f fs ih =>
    simp [collectRun, hclean, ih (k + 2)]

theorem collectRun_err (marshal : File → List Nat) (wr : Nat → Option Nat)
    (files : List File) (k : Nat) :
    (collectRun marshal wr files k).2 = firstWriteErr wr k (2 * files.length) := by
  induction files generalizing k with
  | nil => rfl
  | cons f fs ih =>
    have hlen : 2 * (f :: fs).length = 2 * fs.length + 1 + 1 := by
      simp [List.length_cons]
      omega
    rw [hlen]
    simp only [collectRun, firstWriteErr]
    cases wr k with
    | some e => rfl
    | none =>
      simp only []
      cases wr (k + 1) with
      | some e => rfl
      | none => simpa using ih (k + 2)

theorem collectRun_prefix_aux (marshal : File → List Nat) (wr : Nat → Option Nat)
    (files : List File) (k : Nat) :
    ∃ t, (files.map fun f => marshal (decodeFile f) ++ [10]).flatten
      = (collectRun marshal wr files k).1 ++ t := by
  induction files generalizing k with
  | nil => exact ⟨[], rfl⟩
  | cons f fs ih =>
    simp only [collectRun, List.map_cons, List.flatten]
    cases wr k with
    | some e => exact ⟨_, rfl⟩
    | none =>
      simp only []
      cases wr (k + 1) with
      | some e =>
        refine ⟨10 :: (fs.map fun f => marshal (decodeFile f) ++ [10]).flatten, ?_⟩
        simp
      | none =>
        obtain ⟨t, ht⟩ := ih (k + 2)
        refine ⟨t, ?_⟩
        simp [ht]

/-- C5: for a finite stream, the Collector appends — in stream order —
exactly one record per received `File`, its serialization (with `Path`
and `Name` percent-decoded first) followed by a newline, and reports no
error on clean closure; with failing writes it reports the first write
error encountered and the bytes appended are a prefix of the clean
output. -/
theorem C5_collect_stream (marshal : File → List Nat) (wr wr' : Nat → Option Nat)
    (files : List File) (hclean : ∀ n, wr n = none) :
    collectRun marshal wr files 0 =
      ((files.map fun f => marshal (decodeFile f) ++ [10]).flatten, none) ∧
    (collectRun marshal wr' files 0).2 = firstWriteErr wr' 0 (2 * files.length) ∧
    (collectRun marshal wr' files 0).1 ++
        ((files.map fun f => marshal (decodeFile f) ++ [10]).flatten).drop
          (collectRun marshal wr' files 0).1.length
      = (files.map fun f => marshal (decodeFile f) ++ [10]).flatten := by
  refine ⟨collectRun_clean marshal wr hclean files 0,
    collectRun_err marshal wr' files 0, ?_⟩
  obtain ⟨t, ht⟩ := collectRun_prefix_aux marshal wr' files 0
  rw [ht, List.drop_left]

theorem C5_collect_stream_witness :
    collectRun (fun f => f.Path ++ f.Name) (fun _ => none)
        [⟨[37, 52, 49], [120], 0, 0⟩, ⟨[98], [99], 1, 2⟩] 0 =
      ((([⟨[37, 52, 49], [120], 0, 0⟩, ⟨[98], [99], 1, 2⟩] : List File).map
          fun f => (fun f => f.Path ++ f.Name) (decodeFile f) ++ [10]).flatten, none) ∧
    (collectRun (fun f => f.Path ++ f.Name) (fun k => if k = 1 then some 7 else none)
        [⟨[37, 52, 49], [120], 0, 0⟩, ⟨[98], [99], 1, 2⟩] 0).2 =
      firstWriteErr (fun k => if k = 1 then some 7 else none) 0
        (2 * ([⟨[37, 52, 49], [120], 0, 0⟩, ⟨[98], [99], 1, 2⟩] : List File).length) ∧
    (collectRun (fun f => f.Path ++ f.Name) (fun k => if k = 1 then some 7 else none)
        [⟨[37, 52, 49], [120], 0, 0⟩, ⟨[98], [99], 1, 2⟩] 0).1 ++
        ((([⟨[37, 52, 49], [120], 0, 0⟩, ⟨[98], [99], 1, 2⟩] : List File).map
            fun f => (fun f => f.Path ++ f.Name) (decodeFile f) ++ [10]).flatten).drop
          (collectRun (fun f => f.Path ++ f.Name) (fun k => if k = 1 then some 7 else none)
            [⟨[37, 52, 49], [120], 0, 0⟩, ⟨[98], [99], 1, 2⟩] 0).1.length
      = (([⟨[37, 52, 49], [120], 0, 0⟩, ⟨[98], [99], 1, 2⟩] : List File).map
          fun f => (fun f => f.Path ++ f.Name) (decodeFile f) ++ [10]).flatten :=
  C5_collect_stream (fun f => f.Path ++ f.Name) (fun _ => none)
    (fun k => if k = 1 then some 7 else none)
    [⟨[37, 52, 49], [120], 0, 0⟩, ⟨[98], [99], 1, 2⟩] (fun _ => rfl)

theorem C4_ceiling_stall_witness :
    SchedState.active ⟨SchedLoc.stalling, 1⟩ ≤ 0 + 1 ∧
    (0 < SchedState.active ⟨SchedLoc.stalling, 1⟩ →
      SchedState.loc ⟨SchedLoc.stalling, 1⟩ = SchedLoc.stalling) ∧
    (0 < SchedState.active ⟨SchedLoc.stalling, 1⟩ →
      SchedStep 0 ⟨SchedLoc.stalling, 1⟩ ⟨SchedLoc.stalling, 0⟩ →
      SchedState.active ⟨SchedLoc.stalling, 0⟩ ≤ SchedState.active ⟨SchedLoc.stalling, 1⟩ ∧
      SchedState.loc ⟨SchedLoc.stalling, 0⟩ = SchedLoc.stalling) :=
  C4_ceiling_stall 0 ⟨SchedLoc.stalling, 1⟩ ⟨SchedLoc.stalling, 0⟩
    (Relation.ReflTransGen.single (SchedStep.admitTask 0))

/-! ## Percent-decoding theorems -/

theorem ishex_facts (c : Nat) (h : ishex c = true) : c < 128 ∧ byteOf c = c := by
  simp only [ishex, Bool.or_eq_true, Bool.and_eq_true, decide_eq_true_eq] at h
  have hlt : c < 128 := by omega
  exact ⟨hlt, Nat.mod_eq_of_lt (by omega)⟩

theorem unhex_lt (c : Nat) : unhex c < 16 := by
  unfold unhex
  split
  · omega
  · split
    · omega
    · split <;> omega

theorem ishex_ne_37 (c : Nat) (h : ishex c = true) : c ≠ 37 := by
  intro he
  rw [he] at h
  simp [ishex] at h

theorem specMalformed_cons_ne (c : Nat) (l : List Nat) (hc : c ≠ 37) :
    specMalformed (c :: l) = specMalformed l := by
  cases l with
  | nil => simp [specMalformed, hc]
  | cons c1 l1 =>
    cases l1 with
    | nil => simp [specMalformed, hc]
    | cons c2 l2 => simp [specMalformed, hc]

theorem utf8DecodeLoop_ascii (fuel : Nat) :
    ∀ bs : List Nat, bs.length ≤ fuel → (∀ b ∈ bs, b < 128) →
      utf8DecodeLoop fuel bs = bs := by
  induction fuel with
  | zero =>
    intro bs hlen _
    cases bs with
    | nil => rfl
    | cons b rest => simp [List.length_cons] at hlen
  | succ m ih =>
    intro bs hlen h
    cases bs with
    | nil => rfl
    | cons b rest =>
      have hb : b < 128 := h b (by simp)
      have hr : utf8DecodeRune (b :: rest) = (b, 1) := by
        simp [utf8DecodeRune, hb]
      have hlen2 : rest.length ≤ m := by
        simp [List.length_cons] at hlen
        omega
      simp only [utf8DecodeLoop, hr]
      simp only [List.drop]
      rw [ih rest hlen2 (fun x hx => h x (by simp [hx]))]

theorem utf8Decode_ascii (bs : List Nat) (h : ∀ b ∈ bs, b < 128) :
    utf8Decode bs = bs :=
  utf8DecodeLoop_ascii bs.length bs (le_refl _) h

theorem unescape_triple (d1 d2 : Nat)
    (h1 : ishex d1 = true) (h2 : ishex d2 = true) (hsmall : unhex d1 < 8) :
    PathUnescape [37, d1, d2] = .ok [unhex d1 <<< 4 ||| unhex d2] := by
  obtain ⟨hd1, hb1⟩ := ishex_facts d1 h1
  obtain ⟨hd2, hb2⟩ := ishex_facts d2 h2
  have hval : unhex d1 <<< 4 ||| unhex d2 < 128 := by
    have hx : unhex d1 <<< 4 < 2 ^ 7 := by
      rw [Nat.shiftLeft_eq]
      omega
    have hy : unhex d2 < 2 ^ 7 := by
      have := unhex_lt d2
      omega
    exact Nat.or_lt_two_pow hx hy
  have hscan : unescapeScan Encoding.encodePathSegment [37, d1, d2] = .ok (1, false) := by
    rw [unescapeScan.eq_def]
    simp [hb1, hb2, h1, h2, unescapeScan]
  have hbuild : unescapeBuild Encoding.encodePathSegment [37, d1, d2]
      = [unhex d1 <<< 4 ||| unhex d2] := by
    rw [unescapeBuild.eq_def]
    simp [hb1, hb2, unescapeBuild]
  have hdec : utf8Decode [unhex d1 <<< 4 ||| unhex d2] = [unhex d1 <<< 4 ||| unhex d2] :=
    utf8Decode_ascii _ (by simpa using hval)
  unfold PathUnescape unescape
  rw [hscan]
  simp [hbuild, hdec]

theorem scan_err_of_malformed (fuel : Nat) :
    ∀ s : List Nat, s.length ≤ fuel → (∀ c ∈ s, c < 256) → specMalformed s = true →
      ∃ e, unescapeScan Encoding.encodePathSegment s = Except.error e := by
  induction fuel with
  | zero =>
    intro s hlen _ hm
    cases s with
    | nil => simp [specMalformed] at hm
    | cons c rest => simp [List.length_cons] at hlen
  | succ m ih =>
    intro s hlen hall hm
    cases s with
    | nil => simp [specMalformed] at hm
    | cons c rest =>
      by_cases hc : c = 37
      · subst hc
        cases rest with
        | nil =>
          refine ⟨.escapeErr [37], ?_⟩
          rw [unescapeScan.eq_def]
          simp [List.take]
        | cons c1 rest1 =>
          cases rest1 with
          | nil =>
            refine ⟨.escapeErr [37, c1], ?_⟩
            rw [unescapeScan.eq_def]
            simp [List.take]
          | cons c2 rest2 =>
            by_cases hhex : ishex (byteOf c1) = true ∧ ishex (byteOf c2) = true
            · have hc1 : byteOf c1 = c1 :=
                Nat.mod_eq_of_lt (hall c1 (by simp))
              have hc2 : byteOf c2 = c2 :=
                Nat.mod_eq_of_lt (hall c2 (by simp))
              have hx1 : ishex c1 = true := by rw [← hc1]; exact hhex.1
              have hx2 : ishex c2 = true := by rw [← hc2]; exact hhex.2
              have hm2 : specMalformed rest2 = true := by
                rw [specMalformed] at hm
                simp [hx1, hx2] at hm
                rw [specMalformed_cons_ne c1 _ (ishex_ne_37 c1 hx1),
                  specMalformed_cons_ne c2 _ (ishex_ne_37 c2 hx2)] at hm
                exact hm
              have hlen2 : rest2.length ≤ m := by
                simp [List.length_cons] at hlen
                omega
              obtain ⟨e, he⟩ := ih rest2 hlen2
                (fun x hx => hall x (by simp [hx])) hm2
              refine ⟨e, ?_⟩
              rw [unescapeScan.eq_def]
              simp [hc1, hc2, hx1, hx2, he]
            · refine ⟨.escapeErr [37, c1, c2], ?_⟩
              rw [unescapeScan.eq_def]
              simp [hhex, List.take]
      · have hm2 : specMalformed rest = true := by
          rw [specMalformed_cons_ne c rest hc] at hm
          exact hm
        have hlen2 : rest.length ≤ m := by
          simp [List.length_cons] at hlen
          omega
        obtain ⟨e, he⟩ := ih rest hlen2
          (fun x hx => hall x (by simp [hx])) hm2
        refine ⟨e, ?_⟩
        rw [unescapeScan.eq_def]
        by_cases hc43 : c = 43
        · simp [hc, hc43, he]
        · simp [hc, hc43, he]

theorem pathUnescape_err_of_malformed (s : List Nat)
    (hall : ∀ c ∈ s, c < 256) (hm : specMalformed s = true) :
    isErr (PathUnescape s) = true := by
  obtain ⟨e, he⟩ := scan_err_of_malformed s.length s (le_refl _) hall hm
  unfold PathUnescape unescape
  rw [he]
  rfl

/-- C9, counterexample to the claim as stated: the rune U+0130 is not a
hexadecimal digit, so `"%İ0"` is malformed, yet generic unescaping
accepts it — `unescape` tests hex digits on the rune truncated to its
low-order byte (`byte(s[i+1])`), and U+0130's low byte is the digit
`'0'` — returning `"\x00"` instead of a hard error. -/
theorem C9_counterexample :
    ishex 304 = false ∧ specMalformed [37, 304, 48] = true ∧
    PathUnescape [37, 304, 48] = .ok [0] ∧
    isErr (PathUnescape [37, 304, 48]) = false :=
  ⟨by decide, by decide, by rfl, by rfl⟩

/-- C9, amended: a well-formed `%XX` triple decodes to its byte; for
input whose runes are single-byte characters (below 256, where the
low-byte truncation is the identity) a `%` not followed by two
hexadecimal digits is a hard error for generic unescaping; and the
Collector's decoding falls back to passing the malformed value through
unchanged.  (For runes of 256 or larger the hex-digit test applies to
the rune's low-order byte, so some malformed inputs are accepted —
the counterexample above.) -/
theorem C9_decoding_errors (d1 d2 : Nat) (s : List Nat)
    (h1 : ishex d1 = true) (h2 : ishex d2 = true) (hsmall : unhex d1 < 8)
    (hall : ∀ c ∈ s, c < 256) (hm : specMalformed s = true) :
    PathUnescape [37, d1, d2] = .ok [unhex d1 <<< 4 ||| unhex d2] ∧
    isErr (PathUnescape s) = true ∧
    collectorPathUnescape s = s := by
  have herr := pathUnescape_err_of_malformed s hall hm
  refine ⟨unescape_triple d1 d2 h1 h2 hsmall, herr, ?_⟩
  rw [collectorPathUnescape]
  cases hu : PathUnescape s with
  | ok t => rw [hu] at herr; simp [isErr] at herr
  | error e => rfl

theorem C9_decoding_errors_witness :
    PathUnescape [37, 52, 65] = .ok [unhex 52 <<< 4 ||| unhex 65] ∧
    isErr (PathUnescape [37, 122]) = true ∧
    collectorPathUnescape [37, 122] = [37, 122] :=
  C9_decoding_errors 52 65 [37, 122] (by decide) (by decide) (by decide)
    (by decide) (by decide)

/-! ## Escape / unescape round trip -/

theorem encFacts : ∀ c, c < 128 →
    (shouldEscape c Encoding.encodePathSegment = true →
      upperhex[c >>> 4]? = some (uh (c >>> 4)) ∧
      upperhex[c &&& 15]? = some (uh (c &&& 15)) ∧
      ishex (byteOf (uh (c >>> 4))) = true ∧
      ishex (byteOf (uh (c &&& 15))) = true ∧
      uh (c >>> 4) < 128 ∧ uh (c &&& 15) < 128 ∧
      (unhex (byteOf (uh (c >>> 4))) <<< 4 ||| unhex (byteOf (uh (c &&& 15)))) = c) ∧
    (shouldEscape c Encoding.encodePathSegment = false → c ≠ 37 ∧ byteOf c = c) := by
  decide

theorem escapeCounts_pathSeg (s : List Nat) :
    escapeCounts Encoding.encodePathSegment s
      = (0, s.countP (fun c => shouldEscape c Encoding.encodePathSegment)) := by
  induction s with
  | nil => rfl
  | cons c rest ih =>
    cases hesc : shouldEscape c Encoding.encodePathSegment <;>
      simp [escapeCounts, ih, hesc, List.countP_cons]

theorem escapeBuild_flat (s : List Nat) (h : ∀ c ∈ s, c < 128) :
    escapeBuild Encoding.encodePathSegment s = some ((s.map encPS).flatten) := by
  induction s with
  | nil => rfl
  | cons c rest ih =>
    have hc := h c (by simp)
    have ih' := ih (fun x hx => h x (by simp [hx]))
    cases hesc : shouldEscape c Encoding.encodePathSegment
    · have hbyte := ((encFacts c hc).2 hesc).2
      simp [escapeBuild, hesc, ih', encPS, hbyte]
    · obtain ⟨hg1, hg2, -, -, -, -, -⟩ := (encFacts c hc).1 hesc
      simp [escapeBuild, hesc, hg1, hg2, ih', encPS]

theorem scan_flat (s : List Nat) (h : ∀ c ∈ s, c < 128) :
    unescapeScan Encoding.encodePathSegment ((s.map encPS).flatten)
      = .ok (s.countP (fun c => shouldEscape c Encoding.encodePathSegment), false) := by
  induction s with
  | nil => rfl
  | cons c rest ih =>
    have hc := h c (by simp)
    have ih' := ih (fun x hx => h x (by simp [hx]))
    cases hesc : shouldEscape c Encoding.encodePathSegment
    · obtain ⟨hne37, -⟩ := (encFacts c hc).2 hesc
      have hshape : (((c :: rest).map encPS).flatten)
          = c :: ((rest.map encPS).flatten) := by
        simp [encPS, hesc]
      rw [hshape, unescapeScan.eq_def]
      by_cases hc43 : c = 43
      · subst hc43
        simp [ih', List.countP_cons, hesc]
      · simp [hne37, hc43, ih', List.countP_cons, hesc]
    · obtain ⟨-, -, hx1, hx2, -, -, -⟩ := (encFacts c hc).1 hesc
      have hshape : (((c :: rest).map encPS).flatten)
          = 37 :: uh (c >>> 4) :: uh (c &&& 15) :: ((rest.map encPS).flatten) := by
        simp [encPS, hesc]
      rw [hshape, unescapeScan.eq_2, if_pos rfl,
        if_neg (by simp [hx1, hx2]), if_neg (by simp), if_neg (by simp), ih']
      simp [List.countP_cons, hesc]

theorem build_flat (s : List Nat) (h : ∀ c ∈ s, c < 128) :
    unescapeBuild Encoding.encodePathSegment ((s.map encPS).flatten) = s := by
  induction s with
  | nil => rfl
  | cons c rest ih =>
    have hc := h c (by simp)
    have ih' := ih (fun x hx => h x (by simp [hx]))
    cases hesc : shouldEscape c Encoding.encodePathSegment
    · obtain ⟨hne37, hbyte⟩ := (encFacts c hc).2 hesc
      have hshape : (((c :: rest).map encPS).flatten)
          = c :: ((rest.map encPS).flatten) := by
        simp [encPS, hesc]
      rw [hshape, unescapeBuild.eq_def]
      by_cases hc43 : c = 43
      · subst hc43
        simp [ih', hbyte]
      · simp [hne37, hc43, ih', hbyte]
    · obtain ⟨-, -, -, -, -, -, hval⟩ := (encFacts c hc).1 hesc
      have hshape : (((c :: rest).map encPS).flatten)
          = 37 :: uh (c >>> 4) :: uh (c &&& 15) :: ((rest.map encPS).flatten) := by
        simp [encPS, hesc]
      rw [hshape, unescapeBuild.eq_def]
      simp [ih', hval]

theorem flat_ascii (s : List Nat) (h : ∀ c ∈ s, c < 128) :
    ∀ x ∈ (s.map encPS).flatten, x < 128 := by
  intro x hx
  rw [List.mem_flatten] at hx
  obtain ⟨l, hl, hxl⟩ := hx
  rw [List.mem_map] at hl
  obtain ⟨c, hcs, rfl⟩ := hl
  have hc := h c hcs
  cases hesc : shouldEscape c Encoding.encodePathSegment
  · rw [encPS, if_neg (by simp [hesc])] at hxl
    simp at hxl
    omega
  · obtain ⟨-, -, -, -, h1, h2, -⟩ := (encFacts c hc).1 hesc
    rw [encPS, if_pos (by simp [hesc])] at hxl
    simp at hxl
    rcases hxl with rfl | rfl | rfl
    · omega
    · exact h1
    · exact h2

theorem noescape_flat (s : List Nat)
    (hn : s.countP (fun c => shouldEscape c Encoding.encodePathSegment) = 0) :
    (s.map encPS).flatten = s := by
  induction s with
  | nil => rfl
  | cons c rest ih =>
    rw [List.countP_cons] at hn
    by_cases hesc : shouldEscape c Encoding.encodePathSegment = true
    · rw [if_pos hesc] at hn
      omega
    · have hesc' : shouldEscape c Encoding.encodePathSegment = false :=
        Bool.not_eq_true _ ▸ (by simpa using hesc)
      rw [if_neg hesc] at hn
      have hrest : rest.countP (fun c => shouldEscape c Encoding.encodePathSegment) = 0 := by
        omega
      simp [encPS, hesc', ih hrest]

/-- C10: path-segment escaping followed by path unescaping is the
identity on ASCII rune sequences — `PathEscape` succeeds (it can panic
only on runes of 256 or larger) and `PathUnescape` maps its output back
to the original sequence without error. -/
theorem C10_escape_roundtrip (s : List Nat) (h : ∀ c ∈ s, c < 128) :
    (PathEscape s).isSome = true ∧
    PathUnescape ((PathEscape s).getD []) = .ok s := by
  have hcounts := escapeCounts_pathSeg s
  cases hn : s.countP (fun c => shouldEscape c Encoding.encodePathSegment) with
  | zero =>
    have hesc : PathEscape s = some s := by
      unfold PathEscape escape
      rw [hcounts, hn]
      simp
    have hscan := scan_flat s h
    rw [noescape_flat s hn, hn] at hscan
    have hun : PathUnescape s = .ok s := by
      unfold PathUnescape unescape
      rw [hscan]
      simp
    rw [hesc]
    exact ⟨rfl, by simpa using hun⟩
  | succ n =>
    have hfa := flat_ascii s h
    have hesc : PathEscape s = some ((s.map encPS).flatten) := by
      unfold PathEscape escape
      rw [hcounts, hn]
      simp [escapeBuild_flat s h, utf8Decode_ascii _ hfa]
    have hscan := scan_flat s h
    rw [hn] at hscan
    have hun : PathUnescape ((s.map encPS).flatten) = .ok s := by
      unfold PathUnescape unescape
      rw [hscan]
      simp [build_flat s h, utf8Decode_ascii s h]
    rw [hesc]
    exact ⟨rfl, by simpa using hun⟩

theorem C10_escape_roundtrip_witness :
    (PathEscape [97, 32, 98, 37, 43]).isSome = true ∧
    PathUnescape ((PathEscape [97, 32, 98, 37, 43]).getD []) = .ok [97, 32, 98, 37, 43] :=
  C10_escape_roundtrip [97, 32, 98, 37, 43] (by decide)

end Oddb
